import Mathlib

set_option maxRecDepth 20000

/-!
# Verification of the Samudra Rakshak telemetry backend core

Shallow embedding of `src/samudra_backend.py`: the in-memory telemetry
store (three bounded histories, three latest snapshots, the system-status
dictionary with online flags / last-seen timestamps / message counter),
the three POST ingest handlers, the history/latest/status reads, and the
background liveness sweep.

Modelling conventions:
* JSON payloads are modelled by `JValue`; a Python `dict` is `JValue.obj`
  over an association list with Python update semantics (replace in place,
  append if new).
* `datetime.now()` values are modelled as integer second counts.  Each
  handler calls `datetime.now()` twice (once for `server_timestamp`, once
  for `..._last_seen`), so the embedded handlers take two time arguments.
  `isoformat`/`fromisoformat` round-trip exactly, so `last_seen` is kept
  as the time itself; the `server_timestamp` string stored inside the
  record is modelled as the decimal string of the time.
* Python's f-string `f"{x:.4f}"` raises `TypeError` unless `x` is a
  number (or a bool, which is an int subclass); `canFormatFloat` captures
  exactly that, since the vessel/buoy handlers interpolate
  `data.get('lat')` / `data.get('lon')` with a `:.4f` format spec.
* `deque(maxlen=1000)` appending is `dequeAppend 1000`.
* Python's slice `list(h)[-limit:]` is `pyTailSlice`.
-/

/-- A JSON value as produced by Flask's `request.get_json()`.  Numbers are
modelled as integers (only "is it a number" matters to the core). -/
inductive JValue where
  | null : JValue
  | bool (b : Bool) : JValue
  | num (n : Int) : JValue
  | str (s : String) : JValue
  | arr (elems : List JValue) : JValue
  | obj (fields : List (String × JValue)) : JValue

/-- Python `dict` lookup on an association list (`d.get(k)` / `d[k]`). -/
def getItem : List (String × JValue) → String → Option JValue
  | [], _ => none
  | (k, v) :: rest, key => if k = key then some v else getItem rest key

/-- Python `dict` assignment `d[key] = v`: replaces in place if the key is
present, otherwise appends at the end (insertion order preserved). -/
def setItem : List (String × JValue) → String → JValue → List (String × JValue)
  | [], key, v => [(key, v)]
  | (k, w) :: rest, key, v =>
      if k = key then (k, v) :: rest else (k, w) :: setItem rest key v

/-- Whether a payload is a mapping (a Python `dict`); only mappings survive
`data['server_timestamp'] = ...`, every other JSON value raises `TypeError`
there, before any state is touched. -/
def JValue.isObj : JValue → Bool
  | .obj _ => true
  | _ => false

/-- `data.get(k)` on a payload: `none` both when the key is absent and when
the payload is not a mapping. -/
def dictGet (d : JValue) (k : String) : Option JValue :=
  match d with
  | .obj fields => getItem fields k
  | _ => none

/-- Whether `f"{v:.4f}"` succeeds in Python: it does for numbers and bools
(bool is an int subclass) and raises `TypeError` for everything else,
including `None` (i.e. an absent key fetched with `.get`). -/
def canFormatFloat : Option JValue → Bool
  | some (.num _) => true
  | some (.bool _) => true
  | _ => false

/-- `deque(maxlen=n).append`: append on the right, evicting from the left
whenever the length would exceed `n` (lines 33-35 of the source). -/
def dequeAppend (maxlen : Nat) (xs : List JValue) (x : JValue) : List JValue :=
  let ys := xs ++ [x]
  ys.drop (ys.length - maxlen)

/-- Python's `lst[-limit:]` for an `int` limit: a positive limit keeps the
last `limit` elements; `-0 == 0` so limit `0` yields the whole list; a
negative limit `-k` is the slice `lst[k:]`, dropping the first `k`. -/
def pyTailSlice (xs : List JValue) (limit : Int) : List JValue :=
  if 0 < limit then xs.drop (xs.length - limit.toNat)
  else if limit = 0 then xs
  else xs.drop (-limit).toNat

/-- The module-level mutable state of `samudra_backend.py`: the three
history deques (lines 33-35), the three `current_*` dicts (lines 38-40),
and the `system_status` dict (lines 43-51). -/
structure Store where
  vessel_data_history : List JValue
  buoy_data_history : List JValue
  base_station_data_history : List JValue
  current_vessel_data : JValue
  current_buoy_data : JValue
  current_base_station_data : JValue
  vessel_online : Bool
  buoy_online : Bool
  base_station_online : Bool
  vessel_last_seen : Option Int
  buoy_last_seen : Option Int
  base_station_last_seen : Option Int
  total_messages : Nat

/-- The state at module load: empty histories, empty current dicts, all
offline, no last-seen values, zero messages. -/
def initStore : Store where
  vessel_data_history := []
  buoy_data_history := []
  base_station_data_history := []
  current_vessel_data := .obj []
  current_buoy_data := .obj []
  current_base_station_data := .obj []
  vessel_online := false
  buoy_online := false
  base_station_online := false
  vessel_last_seen := none
  buoy_last_seen := none
  base_station_last_seen := none
  total_messages := 0

/-- What a POST handler returns to the client: the 200 success body
carrying `data['server_timestamp']`, or the 400 error body from the
`except` branch. -/
inductive Response where
  | success (timestamp : JValue) : Response
  | error : Response

/-- The full observable effect of one POST handler call: the store after
the call, the WebSocket events emitted, and the HTTP response. -/
structure IngestResult where
  store : Store
  emitted : List (String × JValue)
  response : Response

/-- The record as stored: the payload's fields with `server_timestamp`
assigned (line 68 of the source, before the lock is taken). -/
def stampRecord (fields : List (String × JValue)) (tStamp : Int) : JValue :=
  .obj (setItem fields "server_timestamp" (.str (toString tStamp)))

/-- `receive_vessel_data` (lines 58-96).  `tStamp` is the `datetime.now()`
of line 68 (the stamped `server_timestamp`), `tSeen` the separate
`datetime.now()` of line 80 (`vessel_last_seen`).  A non-mapping payload
raises `TypeError` at line 68, before the lock: state untouched, nothing
emitted, 400 returned.  A mapping payload is appended to the history,
made current, marks the vessel online, bumps the counter, and is emitted;
then line 86 interpolates `data.get('lat')` and `data.get('lon')` with a
`:.4f` format spec, which raises unless both are numbers — in that case
the handler returns 400 even though the state was already mutated and the
event already emitted. -/
def receive_vessel_data (st : Store) (tStamp tSeen : Int) (payload : JValue) :
    IngestResult :=
  match payload with
  | .obj fields =>
      let data := stampRecord fields tStamp
      let st' : Store :=
        { st with
          vessel_data_history := dequeAppend 1000 st.vessel_data_history data
          current_vessel_data := data
          vessel_online := true
          vessel_last_seen := some tSeen
          total_messages := st.total_messages + 1 }
      { store := st'
        emitted := [("vessel_update", data)]
        response :=
          if canFormatFloat (dictGet data "lat") && canFormatFloat (dictGet data "lon") then
            .success (.str (toString tStamp))
          else .error }
  | _ => { store := st, emitted := [], response := .error }

/-- `receive_buoy_data` (lines 114-145): same shape as the vessel handler,
including the `:.4f` interpolation of `data.get('lat')`/`data.get('lon')`
in its log line (line 135). -/
def receive_buoy_data (st : Store) (tStamp tSeen : Int) (payload : JValue) :
    IngestResult :=
  match payload with
  | .obj fields =>
      let data := stampRecord fields tStamp
      let st' : Store :=
        { st with
          buoy_data_history := dequeAppend 1000 st.buoy_data_history data
          current_buoy_data := data
          buoy_online := true
          buoy_last_seen := some tSeen
          total_messages := st.total_messages + 1 }
      { store := st'
        emitted := [("buoy_update", data)]
        response :=
          if canFormatFloat (dictGet data "lat") && canFormatFloat (dictGet data "lon") then
            .success (.str (toString tStamp))
          else .error }
  | _ => { store := st, emitted := [], response := .error }

/-- `receive_basestation_data` (lines 163-194): its log line only uses
`data.get('messages_relayed', 0)` with no format spec, so it never raises;
every mapping payload yields a 200. -/
def receive_basestation_data (st : Store) (tStamp tSeen : Int) (payload : JValue) :
    IngestResult :=
  match payload with
  | .obj fields =>
      let data := stampRecord fields tStamp
      { store :=
          { st with
            base_station_data_history := dequeAppend 1000 st.base_station_data_history data
            current_base_station_data := data
            base_station_online := true
            base_station_last_seen := some tSeen
            total_messages := st.total_messages + 1 }
        emitted := [("basestation_update", data)]
        response := .success (.str (toString tStamp)) }
  | _ => { store := st, emitted := [], response := .error }

/-- `get_vessel_history` (lines 104-110): `list(vessel_data_history)[-limit:]`. -/
def get_vessel_history (st : Store) (limit : Int) : List JValue :=
  pyTailSlice st.vessel_data_history limit

/-- `get_buoy_history` (lines 153-159). -/
def get_buoy_history (st : Store) (limit : Int) : List JValue :=
  pyTailSlice st.buoy_data_history limit

/-- `get_basestation_history` (lines 202-208). -/
def get_basestation_history (st : Store) (limit : Int) : List JValue :=
  pyTailSlice st.base_station_data_history limit

/-- `request.args.get('limit', 100, type=int)`: the query-string limit, or
100 when the request does not specify one. -/
def get_vessel_history_req (st : Store) (limitArg : Option Int) : List JValue :=
  get_vessel_history st (limitArg.getD 100)

/-- One per-category check of the sweep body: if `last_seen` is set and
more than 30 seconds old, force the flag to `False`; otherwise the flag is
left exactly as it was (the sweep never sets a flag to `True`). -/
def staleCheck (now : Int) (lastSeen : Option Int) (online : Bool) : Bool :=
  match lastSeen with
  | some t => if now - t > 30 then false else online
  | none => online

/-- One iteration of the `check_device_status` background loop
(lines 295-319), performed under the lock at time `now`: each of the three
categories is checked against the 30-second threshold. -/
def check_device_status_iter (st : Store) (now : Int) : Store :=
  { st with
    vessel_online := staleCheck now st.vessel_last_seen st.vessel_online
    buoy_online := staleCheck now st.buoy_last_seen st.buoy_online
    base_station_online := staleCheck now st.base_station_last_seen st.base_station_online }

/-- The three device categories served by the backend. -/
inductive Category where
  | vessel : Category
  | buoy : Category
  | base_station : Category
deriving DecidableEq

/-- The history deque of a category. -/
def historyOf (st : Store) : Category → List JValue
  | .vessel => st.vessel_data_history
  | .buoy => st.buoy_data_history
  | .base_station => st.base_station_data_history

/-- The `current_*` dict of a category. -/
def currentOf (st : Store) : Category → JValue
  | .vessel => st.current_vessel_data
  | .buoy => st.current_buoy_data
  | .base_station => st.current_base_station_data

/-- The `*_online` flag of a category. -/
def onlineOf (st : Store) : Category → Bool
  | .vessel => st.vessel_online
  | .buoy => st.buoy_online
  | .base_station => st.base_station_online

/-- The `*_last_seen` entry of a category. -/
def lastSeenOf (st : Store) : Category → Option Int
  | .vessel => st.vessel_last_seen
  | .buoy => st.buoy_last_seen
  | .base_station => st.base_station_last_seen

/-- Everything the store holds about one category: history, current dict,
online flag, last-seen timestamp. -/
def catView (st : Store) (c : Category) : List JValue × JValue × Bool × Option Int :=
  (historyOf st c, currentOf st c, onlineOf st c, lastSeenOf st c)

/-- The POST handler of a category. -/
def receiveDispatch (c : Category) (st : Store) (tStamp tSeen : Int) (payload : JValue) :
    IngestResult :=
  match c with
  | .vessel => receive_vessel_data st tStamp tSeen payload
  | .buoy => receive_buoy_data st tStamp tSeen payload
  | .base_station => receive_basestation_data st tStamp tSeen payload

/-- The history endpoint of a category. -/
def get_history (st : Store) (c : Category) (limit : Int) : List JValue :=
  match c with
  | .vessel => get_vessel_history st limit
  | .buoy => get_buoy_history st limit
  | .base_station => get_basestation_history st limit

/-- One serialized operation on the shared state: a POST ingest (with its
two clock readings) or one sweep iteration. -/
inductive Op where
  | ingest (c : Category) (tStamp tSeen : Int) (payload : JValue) : Op
  | sweep (now : Int) : Op

/-- Effect of one operation on the store. -/
def runOp (st : Store) : Op → Store
  | .ingest c tStamp tSeen payload => (receiveDispatch c st tStamp tSeen payload).store
  | .sweep now => check_device_status_iter st now

/-- Effect of a serialized trace of operations. -/
def runOps (st : Store) (ops : List Op) : Store :=
  ops.foldl runOp st

/-- The records accepted into category `c` by a trace, in acceptance
order, each stamped as stored.  A record is accepted exactly when the
payload is a mapping: it enters the history, the current dict and the
counter at that moment (even when the vessel/buoy handler later fails in
its log line and answers 400). -/
def acceptedIn (c : Category) : List Op → List JValue
  | [] => []
  | .ingest c' tStamp _ payload :: ops =>
      match payload with
      | .obj fields =>
          if c' = c then stampRecord fields tStamp :: acceptedIn c ops
          else acceptedIn c ops
      | _ => acceptedIn c ops
  | .sweep _ :: ops => acceptedIn c ops

/-- Number of records accepted by a trace across all categories. -/
def acceptedCount : List Op → Nat
  | [] => 0
  | .ingest _ _ _ payload :: ops =>
      (if payload.isObj then 1 else 0) + acceptedCount ops
  | .sweep _ :: ops => acceptedCount ops

/-- The last `n` elements of a list (all of it when it is shorter). -/
def lastN (n : Nat) (xs : List JValue) : List JValue :=
  xs.drop (xs.length - n)

/-- 1001 successive vessel ingests of the same mapping payload. -/
def manyVesselIngests : List Op :=
  List.replicate 1001 (.ingest .vessel 0 0 (.obj [("id", .str "V1")]))

/-- Three accepted vessel ingests at times 1, 2, 3. -/
def threeVesselOps : List Op :=
  [.ingest .vessel 1 1 (.obj [("id", .num 1)]),
   .ingest .vessel 2 2 (.obj [("id", .num 2)]),
   .ingest .vessel 3 3 (.obj [("id", .num 3)])]

/-! ## C9: atomic snapshots under the lock

The source serializes every mutation (lines 70-81 and the analogous
blocks) and every multi-field read (`get_all_latest`, `get_system_status`,
the history and latest endpoints) through the single `data_lock`
(line 54).  We model this at the granularity of the individual Python
statements inside a critical section: a writer that holds the lock
executes its five assignments one at a time, and because readers must
also acquire the lock, a reader can observe the store only in
configurations where the lock is free. -/

/-- One ingest critical-section execution waiting to run or running: the
category, the two clock readings and the mapping payload's fields (a
non-mapping payload raises before `with data_lock:` and never reaches the
lock, see `receiveDispatch_not_obj`). -/
structure Pending where
  cat : Category
  tStamp : Int
  tSeen : Int
  fields : List (String × JValue)

/-- The record the pending ingest stamped before taking the lock
(line 68). -/
def Pending.record (w : Pending) : JValue :=
  stampRecord w.fields w.tStamp

/-- Sub-statement `k` of the critical section of `w` (lines 72-81 of the
source and the analogous lines of the other handlers): 0 appends to the
history deque, 1 replaces the current dict, 2 sets the online flag,
3 sets last-seen, 4 increments the counter. -/
def subStep (w : Pending) (k : Nat) (st : Store) : Store :=
  match w.cat, k with
  | .vessel, 0 =>
      { st with vessel_data_history := dequeAppend 1000 st.vessel_data_history w.record }
  | .vessel, 1 => { st with current_vessel_data := w.record }
  | .vessel, 2 => { st with vessel_online := true }
  | .vessel, 3 => { st with vessel_last_seen := some w.tSeen }
  | .vessel, 4 => { st with total_messages := st.total_messages + 1 }
  | .buoy, 0 =>
      { st with buoy_data_history := dequeAppend 1000 st.buoy_data_history w.record }
  | .buoy, 1 => { st with current_buoy_data := w.record }
  | .buoy, 2 => { st with buoy_online := true }
  | .buoy, 3 => { st with buoy_last_seen := some w.tSeen }
  | .buoy, 4 => { st with total_messages := st.total_messages + 1 }
  | .base_station, 0 =>
      { st with base_station_data_history :=
          dequeAppend 1000 st.base_station_data_history w.record }
  | .base_station, 1 => { st with current_base_station_data := w.record }
  | .base_station, 2 => { st with base_station_online := true }
  | .base_station, 3 => { st with base_station_last_seen := some w.tSeen }
  | .base_station, 4 => { st with total_messages := st.total_messages + 1 }
  | _, _ => st

/-- The first `k` sub-statements of `w`'s critical section. -/
def applyUpto (w : Pending) : Nat → Store → Store
  | 0, st => st
  | k + 1, st => subStep w k (applyUpto w k st)

/-- The store after a sequence of completed ingest critical sections,
executed atomically in commit order. -/
def foldStore (st : Store) (log : List Pending) : Store :=
  log.foldl
    (fun s w => (receiveDispatch w.cat s w.tStamp w.tSeen (.obj w.fields)).store) st

/-- The serialized interpretation of a commit log, from the initial
store. -/
def interpLog (log : List Pending) : Store :=
  foldStore initStore log

/-- A configuration of the concurrent system: the shared store, the
current lock holder together with its program counter inside the critical
section (`none` when `data_lock` is free), and the ghost log of completed
ingests in commit order. -/
structure Config where
  store : Store
  active : Option (Pending × Nat)
  log : List Pending

/-- The configuration at process start. -/
def initConfig : Config := ⟨initStore, none, []⟩

/-- Fine-grained interleaving semantics: any pending ingest may acquire
the free lock; the holder executes its five sub-statements one at a time;
releasing the lock commits the ingest to the log.  Readers also acquire
`data_lock`, so they observe the store exactly in the configurations
whose lock is free. -/
inductive Step : Config → Config → Prop where
  | enter (cfg : Config) (w : Pending) (h : cfg.active = none) :
      Step cfg { cfg with active := some (w, 0) }
  | work (cfg : Config) (w : Pending) (k : Nat)
      (h : cfg.active = some (w, k)) (hk : k < 5) :
      Step cfg { cfg with store := subStep w k cfg.store, active := some (w, k + 1) }
  | leave (cfg : Config) (w : Pending) (h : cfg.active = some (w, 5)) :
      Step cfg { cfg with active := none, log := cfg.log ++ [w] }

/-- Configurations reachable from process start by any interleaving. -/
inductive Reachable : Config → Prop where
  | init : Reachable initConfig
  | step {a b : Config} : Reachable a → Step a b → Reachable b

/-- Coherence: the store is the serialized interpretation of the log,
with the active writer's partial critical section applied on top. -/
def Coherent (cfg : Config) : Prop :=
  (cfg.active = none → cfg.store = interpLog cfg.log) ∧
  (∀ (w : Pending) (k : Nat), cfg.active = some (w, k) →
    k ≤ 5 ∧ cfg.store = applyUpto w k (interpLog cfg.log))

/-- The last committed ingest of a category in a log, if any. -/
def lastIngestOf (c : Category) : List Pending → Option Pending
  | [] => none
  | w :: ws =>
      match lastIngestOf c ws with
      | some u => some u
      | none => if w.cat = c then some w else none

/-- A concrete pending vessel ingest. -/
def w0 : Pending := ⟨.vessel, 0, 0, [("id", .str "V1")]⟩

/-- The configuration after one complete vessel ingest critical
section. -/
def cfg1 : Config := ⟨interpLog [w0], none, [w0]⟩

/-! ## Basic lemmas about the handlers -/

/-- The vessel handler's store effect on a mapping payload (the log-line
`if` only affects the response, never the store). -/
theorem receive_vessel_store_obj (st : Store) (t1 t2 : Int) (fs : List (String × JValue)) :
    (receive_vessel_data st t1 t2 (.obj fs)).store =
      { st with
        vessel_data_history := dequeAppend 1000 st.vessel_data_history (stampRecord fs t1)
        current_vessel_data := stampRecord fs t1
        vessel_online := true
        vessel_last_seen := some t2
        total_messages := st.total_messages + 1 } := rfl

/-- The buoy handler's store effect on a mapping payload. -/
theorem receive_buoy_store_obj (st : Store) (t1 t2 : Int) (fs : List (String × JValue)) :
    (receive_buoy_data st t1 t2 (.obj fs)).store =
      { st with
        buoy_data_history := dequeAppend 1000 st.buoy_data_history (stampRecord fs t1)
        current_buoy_data := stampRecord fs t1
        buoy_online := true
        buoy_last_seen := some t2
        total_messages := st.total_messages + 1 } := rfl

/-- The base-station handler's store effect on a mapping payload. -/
theorem receive_base_store_obj (st : Store) (t1 t2 : Int) (fs : List (String × JValue)) :
    (receive_basestation_data st t1 t2 (.obj fs)).store =
      { st with
        base_station_data_history :=
          dequeAppend 1000 st.base_station_data_history (stampRecord fs t1)
        current_base_station_data := stampRecord fs t1
        base_station_online := true
        base_station_last_seen := some t2
        total_messages := st.total_messages + 1 } := rfl

/-- A non-mapping payload short-circuits every handler: state untouched,
nothing emitted, 400 returned. -/
theorem receiveDispatch_not_obj (c : Category) (st : Store) (t1 t2 : Int)
    (payload : JValue) (h : payload.isObj = false) :
    receiveDispatch c st t1 t2 payload = ⟨st, [], .error⟩ := by
  cases payload with
  | obj fs => exact absurd h (by simp [JValue.isObj])
  | null => cases c <;> rfl
  | bool b => cases c <;> rfl
  | num n => cases c <;> rfl
  | str s => cases c <;> rfl
  | arr elems => cases c <;> rfl

/-- A non-mapping ingest leaves the store untouched. -/
theorem runOp_ingest_not_obj (c : Category) (st : Store) (t1 t2 : Int)
    (payload : JValue) (h : payload.isObj = false) :
    runOp st (.ingest c t1 t2 payload) = st := by
  show (receiveDispatch c st t1 t2 payload).store = st
  rw [receiveDispatch_not_obj c st t1 t2 payload h]

/-- A non-mapping ingest accepts nothing. -/
theorem acceptedIn_cons_not_obj (c c' : Category) (t1 t2 : Int) (payload : JValue)
    (ops : List Op) (h : payload.isObj = false) :
    acceptedIn c (.ingest c' t1 t2 payload :: ops) = acceptedIn c ops := by
  cases payload <;> simp_all [acceptedIn, JValue.isObj]

/-- Effect of one ingest on the history of an arbitrary category. -/
theorem historyOf_ingest (c c' : Category) (st : Store) (t1 t2 : Int)
    (fs : List (String × JValue)) :
    historyOf (receiveDispatch c' st t1 t2 (.obj fs)).store c =
      if c' = c then dequeAppend 1000 (historyOf st c) (stampRecord fs t1)
      else historyOf st c := by
  cases c' <;> cases c <;>
    simp [receiveDispatch, receive_vessel_store_obj, receive_buoy_store_obj,
      receive_base_store_obj, historyOf]

/-- Effect of one ingest on the latest dict of an arbitrary category. -/
theorem currentOf_ingest (c c' : Category) (st : Store) (t1 t2 : Int)
    (fs : List (String × JValue)) :
    currentOf (receiveDispatch c' st t1 t2 (.obj fs)).store c =
      if c' = c then stampRecord fs t1 else currentOf st c := by
  cases c' <;> cases c <;>
    simp [receiveDispatch, receive_vessel_store_obj, receive_buoy_store_obj,
      receive_base_store_obj, currentOf]

/-- Effect of one ingest on the online flag of an arbitrary category. -/
theorem onlineOf_ingest (c c' : Category) (st : Store) (t1 t2 : Int)
    (fs : List (String × JValue)) :
    onlineOf (receiveDispatch c' st t1 t2 (.obj fs)).store c =
      if c' = c then true else onlineOf st c := by
  cases c' <;> cases c <;>
    simp [receiveDispatch, receive_vessel_store_obj, receive_buoy_store_obj,
      receive_base_store_obj, onlineOf]

/-- Effect of one ingest on the last-seen entry of an arbitrary category. -/
theorem lastSeenOf_ingest (c c' : Category) (st : Store) (t1 t2 : Int)
    (fs : List (String × JValue)) :
    lastSeenOf (receiveDispatch c' st t1 t2 (.obj fs)).store c =
      if c' = c then some t2 else lastSeenOf st c := by
  cases c' <;> cases c <;>
    simp [receiveDispatch, receive_vessel_store_obj, receive_buoy_store_obj,
      receive_base_store_obj, lastSeenOf]

/-- The sweep never touches a history. -/
theorem historyOf_sweep (st : Store) (now : Int) (c : Category) :
    historyOf (check_device_status_iter st now) c = historyOf st c := by
  cases c <;> rfl

/-! ## Deque lemmas -/

/-- `lastN n` keeps at most `n` elements. -/
theorem lastN_length_le (n : Nat) (xs : List JValue) : (lastN n xs).length ≤ n := by
  simp only [lastN, List.length_drop]
  omega

/-- `lastN n` of a list of at least `n` elements has exactly `n`. -/
theorem lastN_length_of_le (n : Nat) (xs : List JValue) (h : n ≤ xs.length) :
    (lastN n xs).length = n := by
  simp only [lastN, List.length_drop]
  omega

/-- `lastN n` is the identity on lists of at most `n` elements. -/
theorem lastN_of_le (n : Nat) (xs : List JValue) (h : xs.length ≤ n) :
    lastN n xs = xs := by
  simp only [lastN]
  rw [Nat.sub_eq_zero_of_le h, List.drop_zero]

/-- A deque append is exactly "last `n` of the extended stream". -/
theorem dequeAppend_eq_lastN (n : Nat) (xs : List JValue) (x : JValue) :
    dequeAppend n xs x = lastN n (xs ++ [x]) := rfl

/-- Appending to a full-or-smaller window commutes with taking the window. -/
theorem dequeAppend_lastN (n : Nat) (xs : List JValue) (x : JValue) :
    dequeAppend n (lastN n xs) x = lastN n (xs ++ [x]) := by
  rcases le_or_lt xs.length n with h | h
  · rw [lastN_of_le n xs h]
    exact dequeAppend_eq_lastN n xs x
  · rcases Nat.eq_zero_or_pos n with hn | hn
    · subst hn
      simp [dequeAppend, lastN, List.drop_length]
    · rw [dequeAppend_eq_lastN]
      simp only [lastN, List.length_append, List.length_singleton, List.length_drop]
      have h1 : xs.length - (xs.length - n) = n := by omega
      rw [h1]
      have h2 : xs.length + 1 - n ≤ xs.length := by omega
      rw [List.drop_append_of_le_length h2]
      have h4 : n + 1 - n ≤ (xs.drop (xs.length - n)).length := by
        rw [List.length_drop]; omega
      rw [List.drop_append_of_le_length h4, List.drop_drop]
      have h3 : xs.length - n + (n + 1 - n) = xs.length + 1 - n := by omega
      rw [h3]

/-- Folding deque appends over a record stream from the empty deque keeps
exactly the last `n` records. -/
theorem foldl_dequeAppend (n : Nat) (recs : List JValue) :
    recs.foldl (dequeAppend n) [] = lastN n recs := by
  induction recs using List.reverseRecOn with
  | nil => simp [lastN]
  | append_singleton recs x ih =>
      rw [List.foldl_append, List.foldl_cons, List.foldl_nil, ih, dequeAppend_lastN]

/-- After any trace, a category's history is the fold of deque appends of
its accepted records over the starting history. -/
theorem historyOf_runOps (st : Store) (ops : List Op) (c : Category) :
    historyOf (runOps st ops) c =
      (acceptedIn c ops).foldl (dequeAppend 1000) (historyOf st c) := by
  induction ops generalizing st with
  | nil => rfl
  | cons op ops ih =>
      cases op with
      | ingest c' t1 t2 p =>
          show historyOf (runOps (runOp st (.ingest c' t1 t2 p)) ops) c = _
          cases p with
          | obj fs =>
              rw [ih]
              show _ = (acceptedIn c (.ingest c' t1 t2 (.obj fs) :: ops)).foldl _ _
              simp only [acceptedIn]
              by_cases hc : c' = c
              · simp only [if_pos hc, List.foldl_cons, runOp, historyOf_ingest, if_pos hc]
              · simp only [if_neg hc, runOp, historyOf_ingest, if_neg hc]
          | null =>
              rw [runOp_ingest_not_obj c' st t1 t2 .null rfl, ih,
                acceptedIn_cons_not_obj c c' t1 t2 .null ops rfl]
          | bool b =>
              rw [runOp_ingest_not_obj c' st t1 t2 (.bool b) rfl, ih,
                acceptedIn_cons_not_obj c c' t1 t2 (.bool b) ops rfl]
          | num n =>
              rw [runOp_ingest_not_obj c' st t1 t2 (.num n) rfl, ih,
                acceptedIn_cons_not_obj c c' t1 t2 (.num n) ops rfl]
          | str s =>
              rw [runOp_ingest_not_obj c' st t1 t2 (.str s) rfl, ih,
                acceptedIn_cons_not_obj c c' t1 t2 (.str s) ops rfl]
          | arr elems =>
              rw [runOp_ingest_not_obj c' st t1 t2 (.arr elems) rfl, ih,
                acceptedIn_cons_not_obj c c' t1 t2 (.arr elems) ops rfl]
      | sweep now =>
          show historyOf (runOps (runOp st (.sweep now)) ops) c = _
          rw [show runOp st (.sweep now) = check_device_status_iter st now from rfl]
          rw [ih, historyOf_sweep]
          rfl

/-! ## C1: bounded history -/

/-- C1: for every category the history buffer never exceeds 1000 records
(the oldest is evicted when a 1001st would be appended): after any trace
of operations the history is exactly the last 1000 accepted records in
acceptance order (oldest first), hence its length is at most 1000, and
once more than 1000 records were accepted, `history(category, 1000)`
returns exactly the last 1000 accepted records, oldest first. -/
theorem C1_bounded_history (c : Category) (ops : List Op) :
    historyOf (runOps initStore ops) c = lastN 1000 (acceptedIn c ops) ∧
    (historyOf (runOps initStore ops) c).length ≤ 1000 ∧
    (1000 < (acceptedIn c ops).length →
      get_history (runOps initStore ops) c 1000 =
        (acceptedIn c ops).drop ((acceptedIn c ops).length - 1000) ∧
      (get_history (runOps initStore ops) c 1000).length = 1000) := by
  have hinit : historyOf initStore c = [] := by cases c <;> rfl
  have hhist : historyOf (runOps initStore ops) c = lastN 1000 (acceptedIn c ops) := by
    rw [historyOf_runOps, hinit, foldl_dequeAppend]
  refine ⟨hhist, ?_, ?_⟩
  · rw [hhist]
    exact lastN_length_le 1000 _
  · intro hN
    have hlen : (historyOf (runOps initStore ops) c).length ≤ 1000 := by
      rw [hhist]; exact lastN_length_le 1000 _
    have hsel : ∀ (st : Store), get_history st c 1000 = pyTailSlice (historyOf st c) 1000 := by
      intro st; cases c <;> rfl
    have h1000 : (1000 : Int).toNat = 1000 := rfl
    have hget : get_history (runOps initStore ops) c 1000
        = historyOf (runOps initStore ops) c := by
      rw [hsel]
      show pyTailSlice _ 1000 = _
      unfold pyTailSlice
      rw [if_pos (by norm_num), h1000,
        Nat.sub_eq_zero_of_le hlen, List.drop_zero]
    constructor
    · rw [hget, hhist]
      rfl
    · rw [hget, hhist, lastN_length_of_le]
      omega

/-- `acceptedIn` over a replicated mapping-payload ingest. -/
theorem acceptedIn_replicate (c : Category) (t1 t2 : Int) (fs : List (String × JValue))
    (n : Nat) :
    acceptedIn c (List.replicate n (.ingest c t1 t2 (.obj fs)))
      = List.replicate n (stampRecord fs t1) := by
  induction n with
  | zero => rfl
  | succ n ih =>
      rw [List.replicate_succ, List.replicate_succ]
      show (if c = c then stampRecord fs t1 :: acceptedIn c (List.replicate n _)
            else acceptedIn c (List.replicate n _)) = _
      rw [if_pos rfl, ih]

/-- Witness for `C1_bounded_history`: after 1001 accepted vessel ingests
the hypothesis `1000 < N` holds and the conclusion follows. -/
theorem C1_bounded_history_witness :
    1000 < (acceptedIn .vessel manyVesselIngests).length ∧
    (historyOf (runOps initStore manyVesselIngests) .vessel
        = lastN 1000 (acceptedIn .vessel manyVesselIngests) ∧
      (historyOf (runOps initStore manyVesselIngests) .vessel).length ≤ 1000 ∧
      (1000 < (acceptedIn .vessel manyVesselIngests).length →
        get_history (runOps initStore manyVesselIngests) .vessel 1000 =
          (acceptedIn .vessel manyVesselIngests).drop
            ((acceptedIn .vessel manyVesselIngests).length - 1000) ∧
        (get_history (runOps initStore manyVesselIngests) .vessel 1000).length = 1000)) := by
  constructor
  · rw [manyVesselIngests, acceptedIn_replicate, List.length_replicate]
    norm_num
  · exact C1_bounded_history .vessel manyVesselIngests

/-! ## C2: counter exactness and monotonicity -/

/-- Effect of one operation on the message counter: an accepted (mapping)
ingest adds one, everything else leaves it alone. -/
theorem total_messages_runOp (st : Store) (op : Op) :
    (runOp st op).total_messages =
      st.total_messages +
        (match op with
         | .ingest _ _ _ p => if p.isObj then 1 else 0
         | .sweep _ => 0) := by
  cases op with
  | ingest c t1 t2 p => cases p <;> cases c <;> rfl
  | sweep now => rfl

/-- Over a trace the counter grows by exactly the number of accepted
records. -/
theorem total_messages_runOps (st : Store) (ops : List Op) :
    (runOps st ops).total_messages = st.total_messages + acceptedCount ops := by
  induction ops generalizing st with
  | nil => rfl
  | cons op ops ih =>
      show (runOps (runOp st op) ops).total_messages = _
      rw [ih, total_messages_runOp]
      cases op with
      | ingest c t1 t2 p =>
          show st.total_messages + (if p.isObj then 1 else 0) + acceptedCount ops
              = st.total_messages + ((if p.isObj then 1 else 0) + acceptedCount ops)
          rw [Nat.add_assoc]
      | sweep now =>
          show st.total_messages + 0 + acceptedCount ops
              = st.total_messages + acceptedCount ops
          rw [Nat.add_zero]

/-- C2: after any trace, `total_messages` equals exactly the number of
accepted records across all categories, whatever the per-category
distribution and interleaving with sweeps; and no operation ever
decreases the counter. -/
theorem C2_counter_exact (ops : List Op) :
    (runOps initStore ops).total_messages = acceptedCount ops ∧
    ∀ (st : Store) (op : Op), st.total_messages ≤ (runOp st op).total_messages := by
  constructor
  · rw [total_messages_runOps]
    exact Nat.zero_add _
  · intro st op
    rw [total_messages_runOp]
    exact Nat.le_add_right _ _

/-! ## C3: liveness transitions -/

/-- C3: for a category with `last_seen = T` and `online = true`, a sweep
at `T + 31` sets `online = false`, a sweep at `T + 29` leaves
`online = true` (going offline needs strictly more than 30 seconds of
silence), and any subsequent accepted ingest sets `online = true`
immediately, with no sweep involved. -/
theorem C3_liveness_transition (st : Store) (c : Category) (T : Int)
    (h1 : lastSeenOf st c = some T) (h2 : onlineOf st c = true) :
    onlineOf (check_device_status_iter st (T + 31)) c = false ∧
    onlineOf (check_device_status_iter st (T + 29)) c = true ∧
    ∀ (t1 t2 : Int) (p : JValue), p.isObj = true →
      onlineOf (receiveDispatch c st t1 t2 p).store c = true := by
  have hsweep : ∀ now, onlineOf (check_device_status_iter st now) c
      = staleCheck now (lastSeenOf st c) (onlineOf st c) := by
    intro now; cases c <;> rfl
  have hingest : ∀ (t1 t2 : Int) (fs : List (String × JValue)),
      onlineOf (receiveDispatch c st t1 t2 (.obj fs)).store c = true := by
    intro t1 t2 fs; cases c <;> rfl
  refine ⟨?_, ?_, ?_⟩
  · rw [hsweep, h1]
    show (if T + 31 - T > 30 then false else onlineOf st c) = false
    rw [if_pos (by omega)]
  · rw [hsweep, h1, h2]
    show (if T + 29 - T > 30 then false else true) = true
    rw [if_neg (by omega)]
  · intro t1 t2 p hp
    cases p
    case obj fs => exact hingest t1 t2 fs
    all_goals exact absurd hp (by simp [JValue.isObj])

/-- Witness for `C3_liveness_transition`: the store after one accepted
vessel ingest at time 0 satisfies both hypotheses, and the conclusion
follows for the vessel category. -/
theorem C3_liveness_transition_witness :
    lastSeenOf (receive_vessel_data initStore 0 0 (.obj [])).store .vessel = some 0 ∧
    onlineOf (receive_vessel_data initStore 0 0 (.obj [])).store .vessel = true ∧
    (onlineOf (check_device_status_iter
        (receive_vessel_data initStore 0 0 (.obj [])).store (0 + 31)) .vessel = false ∧
      onlineOf (check_device_status_iter
        (receive_vessel_data initStore 0 0 (.obj [])).store (0 + 29)) .vessel = true ∧
      ∀ (t1 t2 : Int) (p : JValue), p.isObj = true →
        onlineOf (receiveDispatch .vessel
          (receive_vessel_data initStore 0 0 (.obj [])).store t1 t2 p).store .vessel = true) :=
  ⟨rfl, rfl, C3_liveness_transition _ .vessel 0 rfl rfl⟩

/-! ## C4: the "never fails for a mapping" claim against the log-line crash -/

/-- C4 (code bug): the structurally valid mapping payload with id "V1" and
no `lat`/`lon` fields is accepted into the store (history appended,
counter bumped, WebSocket event emitted) — but the vessel handler then
crashes in its log line, interpolating `data.get('lat')` (which is `None`)
with a `:.4f` format spec, so the caller receives a 400 error instead of
the accepted timestamp.  The base-station handler, whose log line has no
format spec, succeeds on the analogous payload. -/
theorem C4_mapping_ingest_crashes :
    (receive_vessel_data initStore 0 0 (.obj [("id", .str "V1")])).response = .error ∧
    (receive_vessel_data initStore 0 0 (.obj [("id", .str "V1")])).store.total_messages = 1 ∧
    (receive_vessel_data initStore 0 0
        (.obj [("id", .str "V1")])).store.vessel_data_history.length = 1 ∧
    (receive_vessel_data initStore 0 0 (.obj [("id", .str "V1")])).emitted.length = 1 ∧
    (receive_buoy_data initStore 0 0 (.obj [("buoy_id", .str "B1")])).response = .error ∧
    (receive_basestation_data initStore 0 0 (.obj [("id", .str "S1")])).response
      = .success (.str "0") :=
  ⟨rfl, rfl, rfl, rfl, rfl, rfl⟩

/-! ## C5: validation of non-mapping payloads -/

/-- C5: an ingest whose payload is not a mapping returns the validation
error and leaves the whole store exactly as before the call — counter,
every history, every latest dict, every online flag and last-seen — and
broadcasts nothing to subscribers. -/
theorem C5_validation_rejects (c : Category) (st : Store) (t1 t2 : Int)
    (p : JValue) (h : p.isObj = false) :
    (receiveDispatch c st t1 t2 p).store = st ∧
    (receiveDispatch c st t1 t2 p).emitted = [] ∧
    (receiveDispatch c st t1 t2 p).response = .error := by
  rw [receiveDispatch_not_obj c st t1 t2 p h]
  exact ⟨rfl, rfl, rfl⟩

/-- Witness for `C5_validation_rejects`: the string payload
"not-a-mapping" posted to the vessel endpoint. -/
theorem C5_validation_rejects_witness :
    (JValue.str "not-a-mapping").isObj = false ∧
    ((receiveDispatch .vessel initStore 0 0 (.str "not-a-mapping")).store = initStore ∧
      (receiveDispatch .vessel initStore 0 0 (.str "not-a-mapping")).emitted = [] ∧
      (receiveDispatch .vessel initStore 0 0 (.str "not-a-mapping")).response = .error) :=
  ⟨rfl, C5_validation_rejects .vessel initStore 0 0 (.str "not-a-mapping") rfl⟩

/-! ## C6: history limit handling -/

/-- C6 counterexample: with three records in the vessel history, the
request `limit = -1` is not rejected — it silently returns the two newest
records — and `limit = 0` is neither rejected nor clamped: it returns the
entire history, a window the claim says must not exist. -/
theorem C6_counterexample :
    get_vessel_history (runOps initStore threeVesselOps) (-1)
      = [stampRecord [("id", .num 2)] 2, stampRecord [("id", .num 3)] 3] ∧
    get_vessel_history (runOps initStore threeVesselOps) (-1) ≠ [] ∧
    get_vessel_history (runOps initStore threeVesselOps) 0
      = (runOps initStore threeVesselOps).vessel_data_history ∧
    (get_vessel_history (runOps initStore threeVesselOps) 0).length = 3 := by
  have h1 : get_vessel_history (runOps initStore threeVesselOps) (-1)
      = [stampRecord [("id", .num 2)] 2, stampRecord [("id", .num 3)] 3] := rfl
  refine ⟨h1, ?_, rfl, rfl⟩
  rw [h1]
  exact List.cons_ne_nil _ _

/-- C6 amended: the limit defaults to 100 when the request does not give
one; no limit is ever rejected: a positive limit returns the newest
`min(limit, length)` records, limit 0 returns the entire history, and a
negative limit `-k` silently returns all but the `k` oldest records; in
every case the result is a suffix of the history (newest records, oldest
first). -/
theorem C6_amended (st : Store) (limit : Int) :
    get_vessel_history_req st none = get_vessel_history st 100 ∧
    List.IsSuffix (get_vessel_history st limit) st.vessel_data_history ∧
    (0 < limit →
      (get_vessel_history st limit).length
        = min limit.toNat st.vessel_data_history.length) ∧
    (limit = 0 → get_vessel_history st limit = st.vessel_data_history) ∧
    (limit < 0 →
      get_vessel_history st limit = st.vessel_data_history.drop (-limit).toNat) := by
  refine ⟨rfl, ?_, ?_, ?_, ?_⟩
  · unfold get_vessel_history pyTailSlice
    split
    · exact List.drop_suffix _ _
    · split
      · exact List.suffix_refl _
      · exact List.drop_suffix _ _
  · intro h
    unfold get_vessel_history pyTailSlice
    rw [if_pos h, List.length_drop]
    omega
  · intro h
    subst h
    rfl
  · intro h
    unfold get_vessel_history pyTailSlice
    rw [if_neg (by omega), if_neg (by omega)]

/-- Witness for `C6_amended` at limit `-1` on the three-record store. -/
theorem C6_amended_witness :
    ((-1 : Int) < 0) ∧
    get_vessel_history (runOps initStore threeVesselOps) (-1)
      = (runOps initStore threeVesselOps).vessel_data_history.drop (-(-1 : Int)).toNat :=
  ⟨by norm_num,
   (C6_amended (runOps initStore threeVesselOps) (-1)).2.2.2.2 (by norm_num)⟩

/-! ## C7: accepted timestamp versus last_seen -/

/-- C7 counterexample: each handler reads the clock twice — line 68 stamps
`server_timestamp`, line 80 samples `datetime.now()` again for
`vessel_last_seen`.  With the clock at 0 for the stamp and at 1 for the
status update, the response echoes timestamp 0 and the stored record
carries `server_timestamp` 0, but `last_seen` is 1: the reported
`last_seen` is not the stamped timestamp. -/
theorem C7_counterexample :
    (receive_vessel_data initStore 0 1
        (.obj [("id", .str "V1"), ("lat", .num 12), ("lon", .num 77)])).response
      = .success (.str "0") ∧
    dictGet (receive_vessel_data initStore 0 1
        (.obj [("id", .str "V1"), ("lat", .num 12), ("lon", .num 77)])).store.current_vessel_data
      "server_timestamp" = some (.str "0") ∧
    (receive_vessel_data initStore 0 1
        (.obj [("id", .str "V1"), ("lat", .num 12), ("lon", .num 77)])).store.vessel_last_seen
      = some 1 ∧
    (1 : Int) ≠ 0 := by
  refine ⟨rfl, rfl, rfl, ?_⟩
  norm_num

/-- Looking up the key just assigned into a Python dict yields the
assigned value. -/
theorem getItem_setItem (fs : List (String × JValue)) (k : String) (v : JValue) :
    getItem (setItem fs k v) k = some v := by
  induction fs with
  | nil => simp [setItem, getItem]
  | cons p rest ih =>
      obtain ⟨k', w⟩ := p
      by_cases h : k' = k
      · subst h
        simp [setItem, getItem]
      · simp [setItem, getItem, h, ih]

/-- C7 amended: for every accepted ingest, the timestamp echoed in the 200
response equals the `server_timestamp` stamped into the stored record; but
`last_seen` comes from a second, separate clock reading taken while
updating the status, and equals the stamped timestamp only when the clock
did not advance between the two readings. -/
theorem C7_amended (st : Store) (c : Category) (t1 t2 : Int)
    (fs : List (String × JValue)) :
    (∀ ts, (receiveDispatch c st t1 t2 (.obj fs)).response = .success ts
        → ts = .str (toString t1)) ∧
    dictGet (currentOf (receiveDispatch c st t1 t2 (.obj fs)).store c) "server_timestamp"
      = some (.str (toString t1)) ∧
    lastSeenOf (receiveDispatch c st t1 t2 (.obj fs)).store c = some t2 ∧
    (t2 = t1 → lastSeenOf (receiveDispatch c st t1 t2 (.obj fs)).store c = some t1) := by
  have hcur : currentOf (receiveDispatch c st t1 t2 (.obj fs)).store c
      = stampRecord fs t1 := by
    cases c <;> rfl
  have hseen : lastSeenOf (receiveDispatch c st t1 t2 (.obj fs)).store c = some t2 := by
    cases c <;> rfl
  refine ⟨?_, ?_, hseen, ?_⟩
  · intro ts hts
    cases c with
    | vessel =>
        have hr : (receive_vessel_data st t1 t2 (.obj fs)).response
            = if canFormatFloat (dictGet (stampRecord fs t1) "lat")
                && canFormatFloat (dictGet (stampRecord fs t1) "lon")
              then Response.success (.str (toString t1)) else Response.error := rfl
        rw [show receiveDispatch Category.vessel st t1 t2 (.obj fs)
            = receive_vessel_data st t1 t2 (.obj fs) from rfl, hr] at hts
        split at hts
        · exact (Response.success.inj hts).symm
        · exact Response.noConfusion hts
    | buoy =>
        have hr : (receive_buoy_data st t1 t2 (.obj fs)).response
            = if canFormatFloat (dictGet (stampRecord fs t1) "lat")
                && canFormatFloat (dictGet (stampRecord fs t1) "lon")
              then Response.success (.str (toString t1)) else Response.error := rfl
        rw [show receiveDispatch Category.buoy st t1 t2 (.obj fs)
            = receive_buoy_data st t1 t2 (.obj fs) from rfl, hr] at hts
        split at hts
        · exact (Response.success.inj hts).symm
        · exact Response.noConfusion hts
    | base_station =>
        exact (Response.success.inj hts).symm
  · rw [hcur]
    show getItem (setItem fs "server_timestamp" (.str (toString t1))) "server_timestamp"
        = some (.str (toString t1))
    exact getItem_setItem fs "server_timestamp" (.str (toString t1))
  · intro h
    rw [hseen, h]

/-- Witness for `C7_amended`: a concrete accepted vessel ingest with both
clock readings at 0; the response hypothesis and the `t2 = t1` hypothesis
are discharged by evaluation. -/
theorem C7_amended_witness :
    (JValue.str "0" = .str (toString (0 : Int))) ∧
    lastSeenOf (receiveDispatch .vessel initStore 0 0
        (.obj [("id", .str "V1"), ("lat", .num 12), ("lon", .num 77)])).store .vessel
      = some 0 :=
  ⟨(C7_amended initStore .vessel 0 0
      [("id", .str "V1"), ("lat", .num 12), ("lon", .num 77)]).1 (.str "0") rfl,
   (C7_amended initStore .vessel 0 0
      [("id", .str "V1"), ("lat", .num 12), ("lon", .num 77)]).2.2.2 rfl⟩

/-! ## C8: sweep algebra -/

/-- One stale-check is idempotent. -/
theorem staleCheck_idem (now : Int) (ls : Option Int) (o : Bool) :
    staleCheck now ls (staleCheck now ls o) = staleCheck now ls o := by
  cases ls with
  | none => rfl
  | some t =>
      show (if now - t > 30 then false else if now - t > 30 then false else o)
          = (if now - t > 30 then false else o)
      split <;> rfl

/-- A stale-check never revives an offline flag. -/
theorem staleCheck_false (now : Int) (ls : Option Int) :
    staleCheck now ls false = false := by
  cases ls with
  | none => rfl
  | some t =>
      show (if now - t > 30 then false else false) = false
      split <;> rfl

/-- A stale-check yields `false` exactly when the flag was already
`false` or the last-seen value is set and stale. -/
theorem staleCheck_eq_false_iff (now : Int) (ls : Option Int) (o : Bool) :
    staleCheck now ls o = false ↔
      (o = false ∨ ∃ T, ls = some T ∧ now - T > 30) := by
  cases ls with
  | none =>
      show o = false ↔ _
      constructor
      · intro h; exact Or.inl h
      · intro h
        rcases h with h | ⟨T, hT, _⟩
        · exact h
        · exact Option.noConfusion hT
  | some t =>
      show (if now - t > 30 then false else o) = false ↔ _
      by_cases h : now - t > 30
      · rw [if_pos h]
        constructor
        · intro _; exact Or.inr ⟨t, rfl, h⟩
        · intro _; rfl
      · rw [if_neg h]
        constructor
        · intro ho; exact Or.inl ho
        · intro hor
          rcases hor with ho | ⟨T, hT, hgt⟩
          · exact ho
          · cases Option.some.inj hT
            exact absurd hgt h

/-- C8: the liveness sweep is idempotent — at one instant, sweeping twice
equals sweeping once; for every category it changes nothing except
possibly the online flag; it is a no-op on a category never seen or
already offline; and it turns the flag off exactly when the flag was
already off or the category's set `last_seen` is more than 30 seconds
before `now`. -/
theorem C8_sweep_idempotent (st : Store) (now : Int) :
    check_device_status_iter (check_device_status_iter st now) now
      = check_device_status_iter st now ∧
    ∀ c : Category,
      (historyOf (check_device_status_iter st now) c = historyOf st c ∧
        currentOf (check_device_status_iter st now) c = currentOf st c ∧
        lastSeenOf (check_device_status_iter st now) c = lastSeenOf st c) ∧
      (lastSeenOf st c = none →
        catView (check_device_status_iter st now) c = catView st c) ∧
      (onlineOf st c = false →
        catView (check_device_status_iter st now) c = catView st c) ∧
      (onlineOf (check_device_status_iter st now) c = false ↔
        (onlineOf st c = false ∨ ∃ T, lastSeenOf st c = some T ∧ now - T > 30)) := by
  constructor
  · simp [check_device_status_iter, staleCheck_idem]
  · intro c
    have hon : onlineOf (check_device_status_iter st now) c
        = staleCheck now (lastSeenOf st c) (onlineOf st c) := by
      cases c <;> rfl
    have hframe : historyOf (check_device_status_iter st now) c = historyOf st c ∧
        currentOf (check_device_status_iter st now) c = currentOf st c ∧
        lastSeenOf (check_device_status_iter st now) c = lastSeenOf st c := by
      cases c <;> exact ⟨rfl, rfl, rfl⟩
    have hcat : onlineOf (check_device_status_iter st now) c = onlineOf st c →
        catView (check_device_status_iter st now) c = catView st c := by
      intro h
      unfold catView
      rw [hframe.1, hframe.2.1, hframe.2.2, h]
    refine ⟨hframe, ?_, ?_, ?_⟩
    · intro h
      refine hcat ?_
      rw [hon, h]
      rfl
    · intro h
      refine hcat ?_
      rw [hon, h]
      exact staleCheck_false now _
    · rw [hon]
      exact staleCheck_eq_false_iff now _ _

/-- Witness for `C8_sweep_idempotent`: in the initial store the vessel was
never seen and the buoy is offline; the sweep at time 0 is a no-op on
both. -/
theorem C8_sweep_idempotent_witness :
    lastSeenOf initStore .vessel = none ∧
    catView (check_device_status_iter initStore 0) .vessel = catView initStore .vessel ∧
    onlineOf initStore .buoy = false ∧
    catView (check_device_status_iter initStore 0) .buoy = catView initStore .buoy :=
  ⟨rfl,
   ((C8_sweep_idempotent initStore 0).2 .vessel).2.1 rfl,
   rfl,
   ((C8_sweep_idempotent initStore 0).2 .buoy).2.2.1 rfl⟩

/-! ## C10: per-category frame of an ingest -/

/-- C10: an ingest into one category leaves every other category's state
fully unchanged — history, latest record, online flag and last-seen are
the same before and after (whether or not the payload is accepted). -/
theorem C10_frame (c c' : Category) (st : Store) (t1 t2 : Int) (p : JValue)
    (h : c ≠ c') :
    catView (receiveDispatch c st t1 t2 p).store c' = catView st c' := by
  cases p with
  | obj fs =>
      unfold catView
      rw [historyOf_ingest c' c st t1 t2 fs, currentOf_ingest c' c st t1 t2 fs,
        onlineOf_ingest c' c st t1 t2 fs, lastSeenOf_ingest c' c st t1 t2 fs,
        if_neg h, if_neg h, if_neg h, if_neg h]
  | null => rw [receiveDispatch_not_obj c st t1 t2 .null rfl]
  | bool b => rw [receiveDispatch_not_obj c st t1 t2 (.bool b) rfl]
  | num n => rw [receiveDispatch_not_obj c st t1 t2 (.num n) rfl]
  | str s => rw [receiveDispatch_not_obj c st t1 t2 (.str s) rfl]
  | arr elems => rw [receiveDispatch_not_obj c st t1 t2 (.arr elems) rfl]

/-- Witness for `C10_frame`: a vessel ingest leaves the buoy view of the
initial store unchanged. -/
theorem C10_frame_witness :
    Category.vessel ≠ Category.buoy ∧
    catView (receiveDispatch .vessel initStore 0 0 (.obj [("id", .str "V1")])).store .buoy
      = catView initStore .buoy :=
  ⟨fun h => Category.noConfusion h,
   C10_frame .vessel .buoy initStore 0 0 (.obj [("id", .str "V1")])
     (fun h => Category.noConfusion h)⟩

/-- Running all five sub-statements equals the handler's atomic store
effect. -/
theorem applyUpto_five (w : Pending) (st : Store) :
    applyUpto w 5 st
      = (receiveDispatch w.cat st w.tStamp w.tSeen (.obj w.fields)).store := by
  obtain ⟨c, t1, t2, fs⟩ := w
  obtain ⟨h1, h2, h3, c1, c2, c3, o1, o2, o3, l1, l2, l3, tm⟩ := st
  cases c <;> rfl

/-- Committing one more ingest extends the serialized interpretation. -/
theorem interpLog_append (log : List Pending) (w : Pending) :
    interpLog (log ++ [w])
      = (receiveDispatch w.cat (interpLog log) w.tStamp w.tSeen (.obj w.fields)).store := by
  unfold interpLog foldStore
  rw [List.foldl_append]
  rfl

/-- The coherence invariant holds in every reachable configuration. -/
theorem reachable_coherent (cfg : Config) (h : Reachable cfg) : Coherent cfg := by
  induction h with
  | init =>
      refine ⟨fun _ => rfl, fun w k hk => Option.noConfusion hk⟩
  | step hr hs ih =>
      cases hs with
      | enter w hact =>
          refine ⟨fun hcontra => Option.noConfusion hcontra, ?_⟩
          intro w' k' h'
          have h2 : some (w, 0) = some (w', k') := h'
          simp only [Option.some.injEq, Prod.mk.injEq] at h2
          obtain ⟨rfl, rfl⟩ := h2
          exact ⟨by omega, ih.1 hact⟩
      | work w k hact hk =>
          refine ⟨fun hcontra => Option.noConfusion hcontra, ?_⟩
          intro w' k' h'
          have h2 : some (w, k + 1) = some (w', k') := h'
          simp only [Option.some.injEq, Prod.mk.injEq] at h2
          obtain ⟨rfl, rfl⟩ := h2
          constructor
          · omega
          · show subStep w k _ = applyUpto w (k + 1) _
            rw [(ih.2 w k hact).2]
            rfl
      | leave w hact =>
          constructor
          · intro _
            show _ = interpLog (_ ++ [w])
            rw [(ih.2 w 5 hact).2, applyUpto_five, interpLog_append]
          · intro w' k' h'
            exact Option.noConfusion h'

/-- The last ingest of a category is a member of the log. -/
theorem lastIngestOf_mem (c : Category) (log : List Pending) (u : Pending)
    (h : lastIngestOf c log = some u) : u ∈ log := by
  induction log with
  | nil => exact Option.noConfusion h
  | cons w ws ih =>
      cases hws : lastIngestOf c ws with
      | some v =>
          have h2 : some v = some u := by
            have h3 : (match lastIngestOf c ws with
                       | some v => some v
                       | none => if w.cat = c then some w else none) = some u := h
            rw [hws] at h3
            exact h3
          have hvu : v = u := Option.some.inj h2
          subst hvu
          exact List.mem_cons_of_mem w (ih hws)
      | none =>
          have h2 : (if w.cat = c then some w else none) = some u := by
            have h3 : (match lastIngestOf c ws with
                       | some v => some v
                       | none => if w.cat = c then some w else none) = some u := h
            rw [hws] at h3
            exact h3
          by_cases hw : w.cat = c
          · rw [if_pos hw] at h2
            have hwu : w = u := Option.some.inj h2
            subst hwu
            exact List.mem_cons_self w ws
          · rw [if_neg hw] at h2
            exact Option.noConfusion h2

/-- A category without a committed ingest is untouched by the fold. -/
theorem foldStore_cat_none (c : Category) (st : Store) (log : List Pending)
    (h : lastIngestOf c log = none) :
    currentOf (foldStore st log) c = currentOf st c ∧
    lastSeenOf (foldStore st log) c = lastSeenOf st c ∧
    onlineOf (foldStore st log) c = onlineOf st c := by
  induction log generalizing st with
  | nil => exact ⟨rfl, rfl, rfl⟩
  | cons w ws ih =>
      have h3 : (match lastIngestOf c ws with
                 | some v => some v
                 | none => if w.cat = c then some w else none) = none := h
      cases hws : lastIngestOf c ws with
      | some v =>
          rw [hws] at h3
          exact Option.noConfusion h3
      | none =>
          rw [hws] at h3
          have h2 : (if w.cat = c then some w else none) = none := h3
          by_cases hw : w.cat = c
          · rw [if_pos hw] at h2
            exact Option.noConfusion h2
          · have hstep :
                foldStore st (w :: ws)
                  = foldStore ((receiveDispatch w.cat st w.tStamp w.tSeen
                      (.obj w.fields)).store) ws := rfl
            rw [hstep]
            have hrest := ih ((receiveDispatch w.cat st w.tStamp w.tSeen
              (.obj w.fields)).store) hws
            refine ⟨hrest.1.trans ?_, hrest.2.1.trans ?_, hrest.2.2.trans ?_⟩
            · rw [currentOf_ingest, if_neg hw]
            · rw [lastSeenOf_ingest, if_neg hw]
            · rw [onlineOf_ingest, if_neg hw]

/-- After the fold, a category with a last committed ingest `u` shows
exactly `u`'s stamped record, `u`'s second clock reading as last-seen,
and the online flag set. -/
theorem foldStore_cat_some (c : Category) (st : Store) (log : List Pending)
    (u : Pending) (h : lastIngestOf c log = some u) :
    u.cat = c ∧
    currentOf (foldStore st log) c = u.record ∧
    lastSeenOf (foldStore st log) c = some u.tSeen ∧
    onlineOf (foldStore st log) c = true := by
  induction log generalizing st with
  | nil => exact Option.noConfusion h
  | cons w ws ih =>
      have h3 : (match lastIngestOf c ws with
                 | some v => some v
                 | none => if w.cat = c then some w else none) = some u := h
      have hstep :
          foldStore st (w :: ws)
            = foldStore ((receiveDispatch w.cat st w.tStamp w.tSeen
                (.obj w.fields)).store) ws := rfl
      cases hws : lastIngestOf c ws with
      | some v =>
          rw [hws] at h3
          have hvu : v = u := Option.some.inj h3
          subst hvu
          rw [hstep]
          exact ih _ hws
      | none =>
          rw [hws] at h3
          have h2 : (if w.cat = c then some w else none) = some u := h3
          by_cases hw : w.cat = c
          · rw [if_pos hw] at h2
            have hwu : w = u := Option.some.inj h2
            subst hwu
            rw [hstep]
            have hrest := foldStore_cat_none c ((receiveDispatch w.cat st w.tStamp
              w.tSeen (.obj w.fields)).store) ws hws
            refine ⟨hw, hrest.1.trans ?_, hrest.2.1.trans ?_, hrest.2.2.trans ?_⟩
            · rw [currentOf_ingest, if_pos hw]
              rfl
            · rw [lastSeenOf_ingest, if_pos hw]
            · rw [onlineOf_ingest, if_pos hw]
          · rw [if_neg hw] at h2
            exact Option.noConfusion h2

/-- C9: under any interleaving of ingest critical sections with reads —
readers, like writers, must hold `data_lock`, so they observe only
lock-free configurations — no observation is torn: the store equals the
serialized interpretation of the committed ingests, and for every
category the observed latest value is the whole stamped record of one
single committed ingest, with `last_seen` and the online flag coming from
that same ingest (never a mixture of two ingests, never a latest without
its last-seen). -/
theorem C9_atomic_snapshot (cfg : Config) (h : Reachable cfg)
    (hfree : cfg.active = none) :
    cfg.store = interpLog cfg.log ∧
    ∀ c : Category,
      (lastIngestOf c cfg.log = none →
        currentOf cfg.store c = currentOf initStore c ∧
        lastSeenOf cfg.store c = none ∧
        onlineOf cfg.store c = false) ∧
      ∀ u : Pending, lastIngestOf c cfg.log = some u →
        u ∈ cfg.log ∧ u.cat = c ∧
        currentOf cfg.store c = u.record ∧
        lastSeenOf cfg.store c = some u.tSeen ∧
        onlineOf cfg.store c = true := by
  have hco := (reachable_coherent cfg h).1 hfree
  refine ⟨hco, ?_⟩
  intro c
  constructor
  · intro hnone
    rw [hco]
    have hrest := foldStore_cat_none c initStore cfg.log hnone
    refine ⟨hrest.1, hrest.2.1.trans ?_, hrest.2.2.trans ?_⟩
    · cases c <;> rfl
    · cases c <;> rfl
  · intro u hu
    rw [hco]
    have hs := foldStore_cat_some c initStore cfg.log u hu
    exact ⟨lastIngestOf_mem c cfg.log u hu, hs.1, hs.2.1, hs.2.2.1, hs.2.2.2⟩

/-- `cfg1` is reachable: acquire the lock, run the five sub-statements,
release. -/
theorem cfg1_reachable : Reachable cfg1 := by
  have h0 : Reachable initConfig := Reachable.init
  have h1 := Reachable.step h0 (Step.enter initConfig w0 rfl)
  have h2 := Reachable.step h1 (Step.work _ w0 0 rfl (by omega))
  have h3 := Reachable.step h2 (Step.work _ w0 1 rfl (by omega))
  have h4 := Reachable.step h3 (Step.work _ w0 2 rfl (by omega))
  have h5 := Reachable.step h4 (Step.work _ w0 3 rfl (by omega))
  have h6 := Reachable.step h5 (Step.work _ w0 4 rfl (by omega))
  exact Reachable.step h6 (Step.leave _ w0 rfl)

/-- Witness for `C9_atomic_snapshot`: both hypotheses hold of `cfg1` and
the conclusion follows. -/
theorem C9_atomic_snapshot_witness :
    Reachable cfg1 ∧
    cfg1.active = none ∧
    (cfg1.store = interpLog cfg1.log ∧
      ∀ c : Category,
        (lastIngestOf c cfg1.log = none →
          currentOf cfg1.store c = currentOf initStore c ∧
          lastSeenOf cfg1.store c = none ∧
          onlineOf cfg1.store c = false) ∧
        ∀ u : Pending, lastIngestOf c cfg1.log = some u →
          u ∈ cfg1.log ∧ u.cat = c ∧
          currentOf cfg1.store c = u.record ∧
          lastSeenOf cfg1.store c = some u.tSeen ∧
          onlineOf cfg1.store c = true) :=
  ⟨cfg1_reachable, rfl, C9_atomic_snapshot cfg1 cfg1_reachable rfl⟩
